import Mathlib

/-!
# Verification of the BTW injection/ejection reconciliation engine

A shallow embedding of the `ClaudeStrategy` injection strategy, the
ownership scan, and the interactive toggle loop of the BTW workflow
manager, together with theorems settling the specification claims.

Documents and file contents are modelled as lists of characters; the
filesystem visible to the strategy (the `.claude/agents` directory, the
shared `CLAUDE.md` document, and the `.claude` directory itself) is
modelled explicitly, with `Option` encoding absence and read failure.
-/

namespace BTW

/-- File contents and paths, as character lists (UTF-16-agnostic text). -/
abbrev Str := List Char

/-! ## Generic text operations (JS string semantics) -/

/-- JS `String.prototype.trim` whitespace test, restricted to the ASCII
whitespace characters that occur in the engine's documents. -/
def isJsWs (c : Char) : Bool :=
  c == ' ' || c == '\t' || c == '\n' || c == '\r'

/-- JS `trim`: strip leading and trailing whitespace. -/
def trimStr (s : Str) : Str :=
  ((s.dropWhile isJsWs).reverse.dropWhile isJsWs).reverse

/-- JS `String.prototype.indexOf`: index of the first occurrence of
`pat` in `s` (`indexOf` of the empty pattern is 0). -/
def firstIdx? : Str → Str → Option Nat
  | [], pat => if pat = [] then some 0 else none
  | c :: t, pat =>
    if pat.isPrefixOf (c :: t) then some 0 else (firstIdx? t pat).map (· + 1)

/-- JS `String.prototype.includes` for a substring pattern. -/
def hasSubstr (s pat : Str) : Bool :=
  (firstIdx? s pat).isSome

/-! ## Markers and fixed strings (`ClaudeStrategy.ts`) -/

def BTW_START_MARKER : Str := "<!-- BTW_START -->".data
def BTW_END_MARKER : Str := "<!-- BTW_END -->".data
def BTW_VERSION : Str := "1.0.0".data
def MD_EXT : Str := ".md".data
def BACKUP_SUFFIX : Str := ".btw-backup".data
def WORKFLOW_PAT : Str := "# workflow: ".data
def WORKFLOW_SUB : Str := "# workflow:".data
def METADATA_SUB : Str := "# BTW metadata".data

/-- The JS regex `/# workflow: (.+)/` applied with `String.match`: scan
left to right for an occurrence of `"# workflow: "` followed by at least
one non-newline character, and capture the maximal non-newline run after
it.  An occurrence followed directly by a newline is skipped, as the
regex engine backtracks past it. -/
def matchWorkflowCapture : Str → Option Str
  | [] => none
  | c :: t =>
    if WORKFLOW_PAT.isPrefixOf (c :: t) then
      let cap := ((c :: t).drop WORKFLOW_PAT.length).takeWhile (fun d => !(d == '\n'))
      if cap = [] then matchWorkflowCapture t else some cap
    else matchWorkflowCapture t

/-- `ClaudeStrategy.removeBtwContent`: locate the first start-marker
index and the first end-marker index; when both exist and the end index
is strictly greater, splice the spanned substring out and trim. -/
def removeBtwContent (content : Str) : Str :=
  match firstIdx? content BTW_START_MARKER, firstIdx? content BTW_END_MARKER with
  | some s, some e =>
    if s < e then
      trimStr (content.take s ++ content.drop (e + BTW_END_MARKER.length))
    else content
  | _, _ => content

/-! ## YAML escaping (`ClaudeStrategy.escapeYamlString`) -/

/-- The trigger condition of `escapeYamlString`: the description
contains `:`, `#` or a newline, or starts or ends with a space. -/
def needsQuote (s : Str) : Bool :=
  s.contains ':' || s.contains '#' || s.contains '\n' ||
    s.head? == some ' ' || s.getLast? == some ' '

/-- JS `str.replace(/"/g, '\\"')`: insert a backslash before every
double quote. -/
def escQuotes : Str → Str
  | [] => []
  | c :: t => if c == '"' then '\\' :: '"' :: escQuotes t else c :: escQuotes t

/-- `ClaudeStrategy.escapeYamlString`. -/
def escapeYamlString (s : Str) : Str :=
  if needsQuote s then '"' :: (escQuotes s ++ ['"']) else s

/-- Modelled from the spec: no header parser ships under `src/`; the
spec describes the generated header as having the description "wrapped
in quotes with internal quotes escaped", so the parser inverts exactly
that convention — strip a surrounding pair of double quotes and turn
each backslash-quote pair back into a quote. -/
def unescQuotes : Str → Str
  | [] => []
  | [c] => [c]
  | c1 :: c2 :: t =>
    if c1 = '\\' ∧ c2 = '"' then '"' :: unescQuotes t
    else c1 :: unescQuotes (c2 :: t)

/-- Modelled from the spec: parse a generated header value back to the
description (see `unescQuotes`). -/
def parseYamlValue (v : Str) : Str :=
  if 2 ≤ v.length ∧ v.head? = some '"' ∧ v.getLast? = some '"' then
    unescQuotes ((v.drop 1).dropLast)
  else v

/-! ## Data model -/

/-- One agent definition of a manifest (`AgentDefinition`). -/
structure AgentDefinition where
  id : Str
  name : Str
  description : Str
  systemPrompt : Str
  model : Option Str
deriving DecidableEq

/-- A workflow manifest (`Manifest`), the fields the strategy reads. -/
structure Manifest where
  id : Str
  name : Str
  description : Str
  version : Str
  author : Option Str
  repository : Option Str
  agents : List AgentDefinition
deriving DecidableEq

/-- One entry of the `.claude/agents` directory listing: a file name and
its contents; `content = none` models a file whose read fails. -/
structure FileEntry where
  name : Str
  content : Option Str
deriving DecidableEq

/-- The filesystem state the Claude strategy touches: whether `.claude`
exists, the `.claude/agents` listing (`none` = directory absent or
unlistable), and the `CLAUDE.md` contents (`none` = file absent). -/
structure FSState where
  claudeDirExists : Bool
  agentsDir : Option (List FileEntry)
  claudeMd : Option Str
deriving DecidableEq

/-- `InjectionStatus` as returned by `getStatus`. -/
structure InjectionStatus where
  isInjected : Bool
  workflowId : Option Str
  hasBackup : Bool
deriving DecidableEq

/-- The single error kind (`ErrorCode.INJECTION_FAILED`) the strategy
throws; the spec's precondition-violation and I/O-failure taxonomy both
surface as this tagged kind. -/
inductive BTWErrorKind where
  | injectionFailed
deriving DecidableEq

/-- `inject` options (`InjectOptions`), booleanized as the strategy
reads them. -/
structure InjectOptions where
  backup : Bool
  force : Bool
  merge : Bool
deriving DecidableEq

/-- `eject` options (`EjectOptions`). -/
structure EjectOptions where
  workflowId : Option Str
  clean : Bool
deriving DecidableEq

/-! ## Ownership scan (`findBtwAgents`, `findBtwAgentsForWorkflow`,
`getAllWorkflowIdsFromAgents`) -/

/-- The shared name filter of every scan loop: `.md` files that are not
`.btw-backup` files. -/
def isAgentFileName (n : Str) : Bool :=
  MD_EXT.isSuffixOf n && !(BACKUP_SUFFIX.isSuffixOf n)

/-- The `findBtwAgents` per-file test: readable, `.md`, non-backup, and
containing `# BTW metadata` or `# workflow:`. -/
def isBtwFile (f : FileEntry) : Bool :=
  isAgentFileName f.name &&
    match f.content with
    | some c => hasSubstr c METADATA_SUB || hasSubstr c WORKFLOW_SUB
    | none => false

/-- `ClaudeStrategy.findBtwAgents`: names of all BTW-owned agent files
(unreadable files are skipped; an absent directory yields `[]`). -/
def findBtwAgents (files : List FileEntry) : List Str :=
  (files.filter isBtwFile).map FileEntry.name

/-- The trimmed capture of the `/# workflow: (.+)/` marker of one file,
guarded by the name filter and readability, as in every scan loop. -/
def agentWorkflowOf (f : FileEntry) : Option Str :=
  if isAgentFileName f.name then
    match f.content with
    | some c => (matchWorkflowCapture c).map trimStr
    | none => none
  else none

/-- The `findBtwAgentsForWorkflow` per-file test:
`match[1].trim() === workflowId`. -/
def matchesWorkflow (f : FileEntry) (workflowId : Str) : Bool :=
  agentWorkflowOf f == some workflowId

/-- `ClaudeStrategy.findBtwAgentsForWorkflow`. -/
def findBtwAgentsForWorkflow (files : List FileEntry) (workflowId : Str) : List Str :=
  (files.filter (fun f => matchesWorkflow f workflowId)).map FileEntry.name

/-- `ClaudeStrategy.getAllWorkflowIdsFromAgents`: the distinct trimmed
marker values, in first-encounter (directory listing) order, as a JS
`Set` records insertion order. -/
def getAllWorkflowIdsFromAgents (files : List FileEntry) : List Str :=
  files.foldl
    (fun acc f =>
      match agentWorkflowOf f with
      | some w => if acc.contains w then acc else acc ++ [w]
      | none => acc)
    []

/-- `ClaudeStrategy.getWorkflowIdFromAgents`: first id found. -/
def getWorkflowIdFromAgents (files : List FileEntry) : Option Str :=
  (getAllWorkflowIdsFromAgents files).head?

/-- `ClaudeStrategy.isWorkflowInjected`. -/
def isWorkflowInjected (fs : FSState) (workflowId : Str) : Bool :=
  (getAllWorkflowIdsFromAgents (fs.agentsDir.getD [])).contains workflowId

/-! ## Artifact generation -/

/-- The Claude model-name lookup table of `generateAgentFile`; unmapped
names pass through unchanged. -/
def modelMap (m : Str) : Str :=
  if m = "claude-3-opus".data then "opus".data
  else if m = "claude-3-sonnet".data then "sonnet".data
  else if m = "claude-3-haiku".data then "haiku".data
  else if m = "claude-opus-4".data then "opus".data
  else if m = "claude-sonnet-4".data then "sonnet".data
  else m

/-- `lines.join('\n')`. -/
def joinLines (ls : List Str) : Str :=
  List.intercalate "\n".data ls

/-- The `lines` array built by `ClaudeStrategy.generateAgentFile`
(`ts` is the injection timestamp the strategy samples). -/
def agentFileLines (agent : AgentDefinition) (workflowId ts : Str) : List Str :=
  ["---".data,
   "name: ".data ++ agent.id,
   "description: ".data ++ escapeYamlString agent.description]
  ++ (match agent.model with
      | some m => ["model: ".data ++ modelMap m]
      | none => [])
  ++ ["# BTW metadata".data,
      "# workflow: ".data ++ workflowId,
      "# injected: ".data ++ ts,
      "---".data,
      [],
      agent.systemPrompt]

/-- `ClaudeStrategy.generateAgentFile`. -/
def generateAgentFile (agent : AgentDefinition) (workflowId ts : Str) : Str :=
  joinLines (agentFileLines agent workflowId ts)

/-- Modelled from the spec: `createMarker` lives in
`BaseInjectionStrategy`, which is not under `src/`; the spec (§6) and
the unit tests give the ownership comment the form
`<!-- BTW:<workflow-id>:<timestamp> -->`. -/
def createMarker (id ts : Str) : Str :=
  "<!-- BTW:".data ++ id ++ ":".data ++ ts ++ " -->".data

/-- The `lines` array built by `ClaudeStrategy.generateInstructions`
(JS truthiness of the optional text fields is empty-string-or-absent). -/
def instructionLines (m : Manifest) (ts : Str) : List Str :=
  [BTW_START_MARKER, createMarker m.id ts, [],
   "# ".data ++ m.name, []]
  ++ (if m.description ≠ [] then [m.description, []] else [])
  ++ ["## Workflow Information".data, [],
      "- **Workflow ID:** ".data ++ m.id,
      "- **Version:** ".data ++ m.version]
  ++ (match m.author with
      | some a => if a ≠ [] then ["- **Author:** ".data ++ a] else []
      | none => [])
  ++ (match m.repository with
      | some r => if r ≠ [] then ["- **Repository:** ".data ++ r] else []
      | none => [])
  ++ [[]]
  ++ (if m.agents ≠ [] then
        ["## Available Agents".data, [],
         "This workflow provides the following specialized agents:".data, []]
        ++ m.agents.map (fun a =>
             "- **".data ++ a.name ++ "** (`".data ++ a.id ++ "`): ".data ++ a.description)
        ++ [[]]
      else [])
  ++ ["---".data, [],
      "*Injected by BTW v".data ++ BTW_VERSION ++ " at ".data ++ ts ++ "*".data,
      [], BTW_END_MARKER]

/-- `ClaudeStrategy.generateInstructions`. -/
def generateInstructions (m : Manifest) (ts : Str) : Str :=
  joinLines (instructionLines m ts)

/-! ## Shared-document update (`updateClaudeMd`) -/

/-- The visual separator `\n\n---\n\n` inserted before appended BTW
content. -/
def SEPARATOR : Str := "\n\n---\n\n".data

/-- `ClaudeStrategy.updateClaudeMd` as the pure content transformer: the
contents written to `CLAUDE.md` given the existing contents (`none` =
file absent) and the `merge`/`force` options. -/
def updateClaudeMd (existing : Option Str) (merge force : Bool) (btwContent : Str) : Str :=
  match existing with
  | some content =>
    if merge then
      let cleaned := trimStr (removeBtwContent content)
      if cleaned ≠ [] then cleaned ++ SEPARATOR ++ btwContent else btwContent
    else if !force then
      if hasSubstr content BTW_START_MARKER then
        let cleaned := trimStr (removeBtwContent content)
        if cleaned ≠ [] then cleaned ++ SEPARATOR ++ btwContent else btwContent
      else trimStr content ++ SEPARATOR ++ btwContent
    else btwContent
  | none => btwContent

/-! ## inject / eject / getStatus -/

/-- `fileSystem.writeFile`: overwrite an existing entry of the listing
or append a new one. -/
def upsertFile (files : List FileEntry) (n : Str) (c : Str) : List FileEntry :=
  if files.any (fun f => f.name == n) then
    files.map (fun f => if f.name == n then ⟨n, some c⟩ else f)
  else files ++ [⟨n, some c⟩]

/-- The backup loop of `inject` step 3: `fileSystem.backup` copies each
named (hence readable) agent file to a `.btw-backup` sibling. -/
def backupFiles (files : List FileEntry) (names : List Str) : List FileEntry :=
  names.foldl
    (fun acc n =>
      match (acc.find? (fun f => f.name == n)).bind FileEntry.content with
      | some c => upsertFile acc (n ++ BACKUP_SUFFIX) c
      | none => acc)
    files

/-- `ClaudeStrategy.inject`, as a state transformer returning the
filesystem state at return (or at the throw) together with the error.
Step order as in the source: ensure directories, precondition check,
backup, force-removal, agent writes, `CLAUDE.md` update. -/
def inject (fs : FSState) (m : Manifest) (options : InjectOptions) (ts : Str) :
    FSState × Option BTWErrorKind :=
  let fs1 : FSState :=
    { claudeDirExists := true
      agentsDir := some (fs.agentsDir.getD [])
      claudeMd := fs.claudeMd }
  if !options.force && isWorkflowInjected fs1 m.id then
    (fs1, some .injectionFailed)
  else
    let files0 := fs1.agentsDir.getD []
    let files1 :=
      if options.backup then
        backupFiles files0 (findBtwAgentsForWorkflow files0 m.id)
      else files0
    let files2 :=
      if options.force then
        files1.filter (fun f => !((findBtwAgentsForWorkflow files1 m.id).contains f.name))
      else files1
    let files3 :=
      m.agents.foldl
        (fun acc a => upsertFile acc (a.id ++ MD_EXT) (generateAgentFile a m.id ts))
        files2
    let newMd := updateClaudeMd fs1.claudeMd options.merge options.force (generateInstructions m ts)
    ({ claudeDirExists := true, agentsDir := some files3, claudeMd := some newMd }, none)

/-- The names `eject` step 1 removes: the scanned BTW agents for the
requested scope, together with their `.btw-backup` siblings. -/
def ejectRemovedNames (files : List FileEntry) (workflowId : Option Str) : List Str :=
  let btwAgents :=
    match workflowId with
    | some w => findBtwAgentsForWorkflow files w
    | none => findBtwAgents files
  btwAgents ++ btwAgents.map (fun n => n ++ BACKUP_SUFFIX)

/-- The agents-directory listing after `eject` step 1's removals. -/
def ejectAgentsDirFiles (files : List FileEntry) (workflowId : Option Str) : List FileEntry :=
  files.filter (fun f => !((ejectRemovedNames files workflowId).contains f.name))

/-- `ClaudeStrategy.eject`: remove owned agent files and their backups,
drop the agents directory when it ends up empty, strip or delete
`CLAUDE.md` when ejecting globally or when the document carries the
requested workflow's `BTW:<id>:` marker, and, under `clean`, remove an
emptied `.claude` directory. -/
def eject (fs : FSState) (options : EjectOptions) : FSState :=
  let files := fs.agentsDir.getD []
  let files2 := ejectAgentsDirFiles files options.workflowId
  let agentsDir2 : Option (List FileEntry) :=
    match fs.agentsDir with
    | none => none
    | some _ => if files2.isEmpty then none else some files2
  let claudeMd2 : Option Str :=
    match fs.claudeMd with
    | none => none
    | some content =>
      let shouldClean :=
        match options.workflowId with
        | none => true
        | some w => hasSubstr content ("BTW:".data ++ w ++ ":".data)
      if shouldClean then
        let cleaned := trimStr (removeBtwContent content)
        if cleaned ≠ [] then some (cleaned ++ "\n".data) else none
      else some content
  let claudeDir2 :=
    if options.clean && agentsDir2.isNone then false else fs.claudeDirExists
  ⟨claudeDir2, agentsDir2, claudeMd2⟩

/-- `ClaudeStrategy.getStatus`: derived from the ownership scan of the
current listing; an absent/unlistable directory or an empty scan yields
the negative status. -/
def getStatus (fs : FSState) : InjectionStatus :=
  let files := fs.agentsDir.getD []
  let btwAgents := findBtwAgents files
  if btwAgents.isEmpty then ⟨false, none, false⟩
  else
    let workflowId := getWorkflowIdFromAgents files
    let hasBackup := btwAgents.any (fun n => files.any (fun f => f.name == n ++ BACKUP_SUFFIX))
    ⟨true, workflowId, hasBackup⟩

/-! ## Interactive toggle loop (inject command, `executeInteractive`) -/

/-- The CLI-level options the interactive toggle closure captures
(`options.backup`, the ambient `--force` flag, `options.merge`). -/
structure InjectCommandOptions where
  backup : Bool
  force : Option Bool
  merge : Option Bool
deriving DecidableEq

/-- An engine invocation issued by the toggle callback. -/
inductive EngineCall where
  | ejectCall (workflowId : Option Str) (clean : Bool)
  | injectCall (m : Manifest) (backup force merge : Bool)
deriving DecidableEq

/-- The toggle callback of `executeInteractive`: an active item issues
`eject(target, { projectRoot, clean: false })` (no workflow id in the
options object); an inactive item looks the workflow up and issues
`inject` with `force: true` and the caller's `backup`/`merge`. -/
def toggleCallback (lookup : Str → Option Manifest) (options : InjectCommandOptions)
    (workflowId : Str) (currentlyActive : Bool) : Except Unit EngineCall :=
  if currentlyActive then
    Except.ok (.ejectCall none false)
  else
    match lookup workflowId with
    | some m => Except.ok (.injectCall m options.backup true (options.merge.getD false))
    | none => Except.error ()

/-- Modelled from the spec (the wording of claim C5, for refinement
comparison with `removeBtwContent`): the first start-sentinel index and
the first end-sentinel index found after it; a region exists only if the
end index is strictly greater than the start index. -/
def locateRegionSpec (doc : Str) : Option (Nat × Nat) :=
  match firstIdx? doc BTW_START_MARKER with
  | none => none
  | some s =>
    match firstIdx? (doc.drop (s + 1)) BTW_END_MARKER with
    | none => none
    | some k => if s < s + 1 + k then some (s, s + 1 + k) else none

/-! ## Concrete instances used by witnesses and counterexamples -/

/-- A minimal manifest with id `demo` and no agents. -/
def m0 : Manifest :=
  { id := "demo".data, name := "W".data, description := [], version := "1".data,
    author := none, repository := none, agents := [] }

/-- A minimal agent definition. -/
def agentA : AgentDefinition :=
  { id := "a".data, name := "A".data, description := "d".data,
    systemPrompt := "p".data, model := none }

/-- An artifact of workflow `demo`. -/
def demoFile : FileEntry :=
  ⟨"a.md".data, some (generateAgentFile agentA "demo".data "T".data)⟩

/-- An artifact of workflow `other`. -/
def otherFile : FileEntry :=
  ⟨"b.md".data, some (generateAgentFile { agentA with id := "b".data } "other".data "T".data)⟩

/-- A project with artifacts of the two distinct workflows `demo` and
`other` under one target. -/
def fs4 : FSState := ⟨true, some [demoFile, otherFile], none⟩

/-- CLI options with the ambient `--force` flag explicitly false. -/
def optsCLI4 : InjectCommandOptions := ⟨true, some false, none⟩

/-- A document whose owned region sits between two pieces of user
content. -/
def doc3 : Str := "A\n<!-- BTW_START -->X<!-- BTW_END -->\nB".data

/-- A project whose shared document is `doc3`. -/
def fs3 : FSState := ⟨true, some [], some doc3⟩

/-- A document with an end sentinel before the start sentinel and
another after it. -/
def doc5 : Str := "<!-- BTW_END --><!-- BTW_START -->X<!-- BTW_END -->".data

/-- A document with a start sentinel but no end sentinel. -/
def docNoEnd : Str := "user content\n<!-- BTW_START --> dangling".data

/-- A listing with one readable marked artifact and one unreadable
file. -/
def files9 : List FileEntry :=
  [⟨"a.md".data, some "# BTW metadata\n# workflow: demo".data⟩, ⟨"b.md".data, none⟩]

/-- The project around `files9`. -/
def fs9 : FSState := ⟨true, some files9, none⟩

/-- A listing exercising every removal class: two owned artifacts of
distinct workflows, a backup sibling, and an unmarked non-`.md` file. -/
def filesW : List FileEntry :=
  [demoFile, otherFile,
   ⟨"a.md.btw-backup".data, some "old".data⟩,
   ⟨"notes.txt".data, some "# workflow: demo".data⟩]

/-- The project around `filesW`. -/
def fsW : FSState := ⟨true, some filesW, none⟩

/-- A project with workflow `demo` already injected. -/
def fs2W : FSState := ⟨true, some [demoFile], none⟩

/-- An agent whose description contains a colon. -/
def agent6 : AgentDefinition := { agentA with description := "Use: colons".data }

/-- A workflow lookup table resolving only `demo`. -/
def lookupW : Str → Option Manifest :=
  fun n => if n = "demo".data then some m0 else none

/-! ## Helper lemmas -/

theorem isPrefixOf_true_iff {l1 l2 : Str} : l1.isPrefixOf l2 = true ↔ l1 <+: l2 :=
  List.isPrefixOf_iff_prefix

theorem contains_true_iff {l : List Str} {a : Str} : l.contains a = true ↔ a ∈ l :=
  List.elem_iff

theorem firstIdx?_isSome_cons {a : Char} {t pat : Str} (h : (firstIdx? t pat).isSome = true) :
    (firstIdx? (a :: t) pat).isSome = true := by
  rw [firstIdx?]
  split
  · rfl
  · simpa using h

theorem hasSubstr_of_capture : ∀ {c cap : Str}, matchWorkflowCapture c = some cap →
    hasSubstr c WORKFLOW_SUB = true := by
  intro c
  induction c with
  | nil => intro cap h; simp [matchWorkflowCapture] at h
  | cons a t ih =>
    intro cap h
    by_cases hp : WORKFLOW_PAT.isPrefixOf (a :: t) = true
    · have hsub : WORKFLOW_SUB.isPrefixOf (a :: t) = true := by
        refine isPrefixOf_true_iff.mpr (List.IsPrefix.trans ?_ (isPrefixOf_true_iff.mp hp))
        decide
      rw [hasSubstr, firstIdx?, if_pos hsub]
      rfl
    · rw [matchWorkflowCapture, if_neg hp] at h
      rw [hasSubstr, firstIdx?]
      split
      · rfl
      · simpa [hasSubstr] using ih h

theorem isBtwFile_of_workflow {f : FileEntry} {w0 : Str}
    (h : agentWorkflowOf f = some w0) : isBtwFile f = true := by
  rw [agentWorkflowOf] at h
  split at h
  case isTrue hname =>
    match hc : f.content with
    | some c =>
      rw [hc] at h
      rcases Option.map_eq_some'.mp h with ⟨cap, hcap, -⟩
      rw [isBtwFile, hname, hc]
      simp [hasSubstr_of_capture hcap]
    | none => rw [hc] at h; cases h
  case isFalse => cases h

theorem getAllWorkflowIds_aux_const (files : List FileEntry)
    (h : ∀ f ∈ files, agentWorkflowOf f = none) (acc : List Str) :
    files.foldl
      (fun acc f =>
        match agentWorkflowOf f with
        | some w => if acc.contains w then acc else acc ++ [w]
        | none => acc)
      acc = acc := by
  induction files generalizing acc with
  | nil => rfl
  | cons a t ih =>
    rw [List.foldl_cons, h a (List.mem_cons_self a t)]
    exact ih (fun f hf => h f (List.mem_cons_of_mem a hf)) acc

theorem findBtwAgents_ne_nil_of_ids {files : List FileEntry}
    (h : getAllWorkflowIdsFromAgents files ≠ []) : findBtwAgents files ≠ [] := by
  by_cases hall : ∀ f ∈ files, agentWorkflowOf f = none
  · exact absurd (getAllWorkflowIds_aux_const files hall []) h
  · push_neg at hall
    rcases hall with ⟨f, hf, hne⟩
    rcases Option.ne_none_iff_exists'.mp hne with ⟨w0, hw0⟩
    intro hnil
    have : f ∈ files.filter isBtwFile :=
      List.mem_filter.mpr ⟨hf, isBtwFile_of_workflow hw0⟩
    rw [findBtwAgents, List.map_eq_nil_iff] at hnil
    rw [hnil] at this
    cases this

theorem nodup_names_inj {l : List FileEntry}
    (h : (l.map FileEntry.name).Nodup) :
    ∀ f ∈ l, ∀ g ∈ l, f.name = g.name → f = g := by
  induction l with
  | nil => intro f hf; cases hf
  | cons a t ih =>
    rw [List.map_cons, List.nodup_cons] at h
    intro f hf g hg hname
    rcases List.mem_cons.mp hf with rfl | hf' <;>
      rcases List.mem_cons.mp hg with rfl | hg'
    · rfl
    · exact absurd (hname ▸ List.mem_map_of_mem FileEntry.name hg') h.1
    · exact absurd (hname ▸ List.mem_map_of_mem FileEntry.name hf') h.1
    · exact ih h.2 f hf' g hg' hname

theorem mem_removal_filter (p : FileEntry → Bool) {files : List FileEntry} {f : FileEntry}
    (hnd : (files.map FileEntry.name).Nodup) (hf : f ∈ files) :
    (f ∈ files.filter (fun g =>
        !(((files.filter p).map FileEntry.name
            ++ ((files.filter p).map FileEntry.name).map (fun n => n ++ BACKUP_SUFFIX)).contains
            g.name)) ↔
      p f = false ∧ ¬ ∃ g, g ∈ files ∧ p g = true ∧ f.name = g.name ++ BACKUP_SUFFIX) := by
  have hmem1 : f.name ∈ (files.filter p).map FileEntry.name ↔ p f = true := by
    constructor
    · intro h
      rcases List.mem_map.mp h with ⟨g, hg, hgname⟩
      rcases List.mem_filter.mp hg with ⟨hgmem, hpg⟩
      exact (nodup_names_inj hnd f hf g hgmem hgname.symm) ▸ hpg
    · intro h
      exact List.mem_map_of_mem _ (List.mem_filter.mpr ⟨hf, h⟩)
  have hmem2 : f.name ∈ ((files.filter p).map FileEntry.name).map (fun n => n ++ BACKUP_SUFFIX) ↔
      ∃ g, g ∈ files ∧ p g = true ∧ f.name = g.name ++ BACKUP_SUFFIX := by
    constructor
    · intro h
      rcases List.mem_map.mp h with ⟨n, hn, hb⟩
      rcases List.mem_map.mp hn with ⟨g, hg, rfl⟩
      rcases List.mem_filter.mp hg with ⟨hgm, hpg⟩
      exact ⟨g, hgm, hpg, hb.symm⟩
    · rintro ⟨g, hgm, hpg, hb⟩
      rw [hb]
      exact List.mem_map_of_mem _ (List.mem_map_of_mem _ (List.mem_filter.mpr ⟨hgm, hpg⟩))
  constructor
  · intro hmem
    rcases List.mem_filter.mp hmem with ⟨-, hb⟩
    rw [Bool.not_eq_true'] at hb
    have hnot : ¬ f.name ∈ ((files.filter p).map FileEntry.name
        ++ ((files.filter p).map FileEntry.name).map (fun n => n ++ BACKUP_SUFFIX)) := by
      intro hin
      rw [contains_true_iff.mpr hin] at hb
      cases hb
    refine ⟨?_, fun hex => hnot (List.mem_append.mpr (Or.inr (hmem2.mpr hex)))⟩
    cases hpf : p f
    · rfl
    · exact absurd (List.mem_append.mpr (Or.inl (hmem1.mpr hpf))) hnot
  · rintro ⟨hpf, hnex⟩
    refine List.mem_filter.mpr ⟨hf, ?_⟩
    rw [Bool.not_eq_true']
    cases hc : ((files.filter p).map FileEntry.name
        ++ ((files.filter p).map FileEntry.name).map (fun n => n ++ BACKUP_SUFFIX)).contains f.name
    · rfl
    · rcases List.mem_append.mp (contains_true_iff.mp hc) with h1 | h2
      · rw [hmem1.mp h1] at hpf; cases hpf
      · exact absurd (hmem2.mp h2) hnex

theorem eject_agents_getD {fs : FSState} {files : List FileEntry} (opts : EjectOptions)
    (hdir : fs.agentsDir = some files) :
    ((eject fs opts).agentsDir.getD []) = ejectAgentsDirFiles files opts.workflowId := by
  rw [eject, hdir]
  rcases h2 : ejectAgentsDirFiles files opts.workflowId with _ | ⟨a, t⟩ <;>
    simp [h2]

theorem escQuotes_head (t : Str) (y : Char) (r : Str)
    (h : escQuotes t = y :: r) : y ≠ '"' := by
  cases t with
  | nil => simp [escQuotes] at h
  | cons c t' =>
    by_cases hb : (c == '"') = true
    · rw [escQuotes, if_pos hb] at h
      injection h with h1 _
      rw [← h1]
      decide
    · rw [escQuotes, if_neg hb] at h
      injection h with h1 _
      rw [← h1]
      exact (beq_eq_false_iff_ne.mp (Bool.not_eq_true _ ▸ hb))

theorem unesc_esc : ∀ s : Str, unescQuotes (escQuotes s) = s := by
  intro s
  induction s with
  | nil => rfl
  | cons c t ih =>
    by_cases hb : (c == '"') = true
    · have hc : c = '"' := by simpa using hb
      subst hc
      rw [escQuotes, if_pos hb, unescQuotes, if_pos ⟨rfl, rfl⟩, ih]
    · rcases hesc : escQuotes t with _ | ⟨y, r⟩
      · have ht : t = [] := by
          cases t with
          | nil => rfl
          | cons d t'' =>
            by_cases hd : (d == '"') = true <;> simp [escQuotes, hd] at hesc
        subst ht
        rw [escQuotes, if_neg hb]
        rfl
      · have hy : y ≠ '"' := escQuotes_head t y r hesc
        have hcond : ¬ (c = '\\' ∧ y = '"') := fun hand => hy hand.2
        rw [escQuotes, if_neg hb, hesc, unescQuotes, if_neg hcond, ← hesc, ih]

theorem hasSubstr_of_firstIdx {s pat : Str} {n : Nat}
    (h : firstIdx? s pat = some n) : hasSubstr s pat = true := by
  rw [hasSubstr, h]
  rfl

theorem firstIdx?_eq_none {s pat : Str} (h : hasSubstr s pat = false) :
    firstIdx? s pat = none := by
  rcases hidx : firstIdx? s pat with _ | n
  · rfl
  · rw [hasSubstr, hidx] at h
    cases h

theorem removeBtwContent_of_no_end {doc : Str}
    (h : hasSubstr doc BTW_END_MARKER = false) : removeBtwContent doc = doc := by
  rw [removeBtwContent, firstIdx?_eq_none h]
  rcases hs : firstIdx? doc BTW_START_MARKER with _ | s <;> rfl

theorem isBtwFile_of_unreadable {f : FileEntry} (h : f.content = none) :
    isBtwFile f = false := by
  rw [isBtwFile, h]
  exact Bool.and_false _

theorem char_contains_true {l : Str} {a : Char} (h : a ∈ l) : l.contains a = true :=
  List.elem_iff.mpr h

theorem eject_deletes_blank_doc {fs : FSState} {d : Str} (opts : EjectOptions)
    (hmd : fs.claudeMd = some d)
    (hclean : (match opts.workflowId with
               | none => true
               | some w => hasSubstr d ("BTW:".data ++ w ++ ":".data)) = true)
    (htr : trimStr (removeBtwContent d) = []) :
    (eject fs opts).claudeMd = none := by
  simp only [eject, hmd, hclean, htr]
  simp

theorem inject_claudeMd_cases (fs : FSState) (m : Manifest) (b fc : Bool) (ts : Str)
    (h0 : fs.claudeMd = none) :
    ((inject fs m ⟨b, fc, false⟩ ts).1).claudeMd = none ∨
    ((inject fs m ⟨b, fc, false⟩ ts).1).claudeMd = some (generateInstructions m ts) := by
  rw [inject]
  split
  · left
    exact h0
  · right
    simp [h0, updateClaudeMd]

/-! ## Claim theorems -/

/-- C1: for every eject call, a file of the agents directory survives
(byte-identical, i.e. as the same name/content entry) exactly when it is
neither an artifact whose embedded `# workflow:` marker matches the
given workflow id (resp., when no id is given, a BTW-marked artifact)
nor the `.btw-backup` sibling of such an artifact; in particular
artifacts marked with a different id, and files carrying no BTW marker,
are left untouched. -/
theorem c1_eject_frame (fs : FSState) (files : List FileEntry) (f : FileEntry)
    (hdir : fs.agentsDir = some files)
    (hnd : (files.map FileEntry.name).Nodup)
    (hf : f ∈ files) :
    (∀ w cl, f ∈ ((eject fs ⟨some w, cl⟩).agentsDir.getD []) ↔
        (matchesWorkflow f w = false ∧
          ¬ ∃ g, g ∈ files ∧ matchesWorkflow g w = true ∧
            f.name = g.name ++ BACKUP_SUFFIX))
    ∧ (∀ cl, f ∈ ((eject fs ⟨none, cl⟩).agentsDir.getD []) ↔
        (isBtwFile f = false ∧
          ¬ ∃ g, g ∈ files ∧ isBtwFile g = true ∧
            f.name = g.name ++ BACKUP_SUFFIX)) := by
  constructor
  · intro w cl
    rw [eject_agents_getD ⟨some w, cl⟩ hdir]
    exact mem_removal_filter (fun g => matchesWorkflow g w) hnd hf
  · intro cl
    rw [eject_agents_getD ⟨none, cl⟩ hdir]
    exact mem_removal_filter isBtwFile hnd hf

/-- C1 witness: in a listing holding artifacts of `demo` and `other`, a
backup sibling and an unmarked file, the frame property holds for the
`other` artifact. -/
theorem c1_witness :
    (filesW.map FileEntry.name).Nodup ∧ otherFile ∈ filesW ∧
    ((∀ w cl, otherFile ∈ ((eject fsW ⟨some w, cl⟩).agentsDir.getD []) ↔
        (matchesWorkflow otherFile w = false ∧
          ¬ ∃ g, g ∈ filesW ∧ matchesWorkflow g w = true ∧
            otherFile.name = g.name ++ BACKUP_SUFFIX))
      ∧ (∀ cl, otherFile ∈ ((eject fsW ⟨none, cl⟩).agentsDir.getD []) ↔
        (isBtwFile otherFile = false ∧
          ¬ ∃ g, g ∈ filesW ∧ isBtwFile g = true ∧
            otherFile.name = g.name ++ BACKUP_SUFFIX))) :=
  ⟨by decide, by decide,
    c1_eject_frame fsW filesW otherFile rfl (by decide) (by decide)⟩

/-- C2: when `inject` is called without `force` and the ownership scan
already reports this manifest's id, the call returns the
`INJECTION_FAILED` kind and the filesystem state at the throw equals the
state before the call. -/
theorem c2_inject_precondition (fs : FSState) (m : Manifest) (b mg : Bool) (ts : Str)
    (files : List FileEntry)
    (h1 : fs.claudeDirExists = true)
    (h2 : fs.agentsDir = some files)
    (h3 : (getAllWorkflowIdsFromAgents files).contains m.id = true) :
    inject fs m ⟨b, false, mg⟩ ts = (fs, some BTWErrorKind.injectionFailed) := by
  obtain ⟨cd, ad, md⟩ := fs
  subst h1
  subst h2
  have h3' := contains_true_iff.mp h3
  simp [inject, isWorkflowInjected, h3']

/-- C2 witness: injecting `demo` into a project already owning a `demo`
artifact, without force, fails and leaves the state unchanged. -/
theorem c2_witness :
    fs2W.claudeDirExists = true ∧ fs2W.agentsDir = some [demoFile] ∧
    (getAllWorkflowIdsFromAgents [demoFile]).contains m0.id = true ∧
    inject fs2W m0 ⟨false, false, false⟩ "T2".data =
      (fs2W, some BTWErrorKind.injectionFailed) :=
  ⟨rfl, rfl, by decide,
    c2_inject_precondition fs2W m0 false false "T2".data [demoFile] rfl rfl (by decide)⟩

/-- C4: code evaluation at the failing input.  The interactive toggle on
an active item issues `eject` with no workflow id (not the toggled
item's id as the claim states), so with `demo` and `other` both injected
the resulting eject removes every artifact — `other`'s file included and
the directory with it — whereas an eject scoped to `demo` would have
kept `other`'s artifact. -/
theorem c4_toggle_ejects_all :
    toggleCallback (fun _ => none) optsCLI4 "demo".data true =
      Except.ok (EngineCall.ejectCall none false) ∧
    otherFile ∈ (fs4.agentsDir.getD []) ∧
    (eject fs4 ⟨none, false⟩).agentsDir = none ∧
    otherFile ∈ ((eject fs4 ⟨some "demo".data, false⟩).agentsDir.getD []) :=
  ⟨rfl, by decide, by decide, by decide⟩

/-- C8: toggling an inactive item invokes `inject` with `force = true`
for every caller configuration — independent of the ambient CLI force
flag — while `backup` and `merge` pass through from the caller's
options. -/
theorem c8_toggle_force_true (lookup : Str → Option Manifest) (o : InjectCommandOptions)
    (w : Str) (m : Manifest) (h : lookup w = some m) :
    toggleCallback lookup o w false =
      Except.ok (EngineCall.injectCall m o.backup true (o.merge.getD false)) ∧
    ∀ o' : InjectCommandOptions, o'.backup = o.backup → o'.merge = o.merge →
      toggleCallback lookup o' w false = toggleCallback lookup o w false := by
  constructor
  · simp [toggleCallback, h]
  · intro o' hb hm
    simp [toggleCallback, h, hb, hm]

/-- C8 witness: with the ambient force flag false, the toggle still
issues `inject` with `force = true`. -/
theorem c8_witness :
    lookupW "demo".data = some m0 ∧ optsCLI4.force = some false ∧
    toggleCallback lookupW optsCLI4 "demo".data false =
      Except.ok (EngineCall.injectCall m0 optsCLI4.backup true (optsCLI4.merge.getD false)) :=
  ⟨by decide, rfl,
    (c8_toggle_force_true lookupW optsCLI4 "demo".data m0 (by decide)).1⟩

/-- C3 counterexample: `doc3` holds a well-formed owned region (start
index 2, end index 21), yet re-injecting over it with `merge` does not
write back the bytes before the start sentinel and after the end
sentinel around the new region: the written document differs from the
in-place replacement the claim describes. -/
theorem c3_cex :
    firstIdx? doc3 BTW_START_MARKER = some 2 ∧
    firstIdx? doc3 BTW_END_MARKER = some 21 ∧ 2 < 21 ∧
    (inject fs3 m0 ⟨false, false, true⟩ "T".data).1.claudeMd ≠
      some ((doc3.take 2) ++ generateInstructions m0 "T".data
        ++ (doc3.drop (21 + BTW_END_MARKER.length))) := by
  refine ⟨by decide, by decide, by decide, ?_⟩
  decide

/-- C3 amended: when the document holds a well-formed owned region,
re-injection (merge mode, and equally the no-force path) removes the
spanned substring, trims the remaining content, and appends the new
region after a `\n\n---\n\n` separator — writing the new region alone
when the remainder is blank — rather than replacing the span in place
byte-for-byte. -/
theorem c3_amended (doc btw : Str) (fc : Bool) (s e : Nat)
    (hs : firstIdx? doc BTW_START_MARKER = some s)
    (he : firstIdx? doc BTW_END_MARKER = some e)
    (hlt : s < e) :
    removeBtwContent doc =
      trimStr (doc.take s ++ doc.drop (e + BTW_END_MARKER.length)) ∧
    (trimStr (removeBtwContent doc) ≠ [] →
      updateClaudeMd (some doc) true fc btw =
        trimStr (removeBtwContent doc) ++ SEPARATOR ++ btw ∧
      updateClaudeMd (some doc) false false btw =
        trimStr (removeBtwContent doc) ++ SEPARATOR ++ btw) ∧
    (trimStr (removeBtwContent doc) = [] →
      updateClaudeMd (some doc) true fc btw = btw) := by
  have hrm : removeBtwContent doc =
      trimStr (doc.take s ++ doc.drop (e + BTW_END_MARKER.length)) := by
    rw [removeBtwContent, hs, he]
    exact if_pos hlt
  refine ⟨hrm, ?_, ?_⟩
  · intro hne
    constructor
    · rw [updateClaudeMd, if_pos rfl]
      simp only [hne, if_pos]
      simp [hne]
    · rw [updateClaudeMd]
      simp only [Bool.false_eq_true, if_neg, Bool.not_false, if_pos,
        hasSubstr_of_firstIdx hs]
      simp [hne]
  · intro hz
    rw [updateClaudeMd]
    simp [hz]

/-- C3 witness: the amended behavior at `doc3`. -/
theorem c3_witness :
    firstIdx? doc3 BTW_START_MARKER = some 2 ∧
    firstIdx? doc3 BTW_END_MARKER = some 21 ∧ (2 : Nat) < 21 ∧
    removeBtwContent doc3 =
      trimStr (doc3.take 2 ++ doc3.drop (21 + BTW_END_MARKER.length)) ∧
    trimStr (removeBtwContent doc3) ≠ [] ∧
    updateClaudeMd (some doc3) true false "R".data =
      trimStr (removeBtwContent doc3) ++ SEPARATOR ++ "R".data :=
  ⟨by decide, by decide, by decide,
    (c3_amended doc3 "R".data false 2 21 (by decide) (by decide) (by decide)).1,
    by decide,
    ((c3_amended doc3 "R".data false 2 21 (by decide) (by decide) (by decide)).2.1
      (by decide)).1⟩

/-- C5 counterexample: in `doc5` an end sentinel precedes the start
sentinel and another follows it.  Locating per the claim's words — the
first end-sentinel index found after the start — reports a region at
`(16, 35)`, but the code compares against the first end-sentinel index
of the whole document (0), reports no region, leaves the document
unchanged, and merge appends instead of replacing. -/
theorem c5_cex :
    locateRegionSpec doc5 = some (16, 35) ∧
    removeBtwContent doc5 = doc5 ∧
    updateClaudeMd (some doc5) true false "R".data =
      trimStr doc5 ++ SEPARATOR ++ "R".data := by
  refine ⟨by decide, by decide, ?_⟩
  decide

/-- C5 amended: region location uses the first start-sentinel index and
the first end-sentinel index of the whole document (not the first one
after the start), with a region only when the end index is strictly
greater; a document with no end sentinel (in particular one with a
dangling start sentinel) has no owned region, is left unchanged by the
strip, and merge appends the new region after the existing content. -/
theorem c5_amended :
    (∀ doc, hasSubstr doc BTW_END_MARKER = false → removeBtwContent doc = doc)
    ∧ (∀ doc s e, firstIdx? doc BTW_START_MARKER = some s →
        firstIdx? doc BTW_END_MARKER = some e → e ≤ s →
        removeBtwContent doc = doc)
    ∧ (∀ doc btw fc, hasSubstr doc BTW_END_MARKER = false → trimStr doc ≠ [] →
        updateClaudeMd (some doc) true fc btw = trimStr doc ++ SEPARATOR ++ btw) := by
  refine ⟨fun doc h => removeBtwContent_of_no_end h, ?_, ?_⟩
  · intro doc s e hs he hle
    rw [removeBtwContent, hs, he]
    exact if_neg (Nat.not_lt.mpr hle)
  · intro doc btw fc h hne
    rw [updateClaudeMd, if_pos rfl]
    simp only [removeBtwContent_of_no_end h]
    simp [hne]

/-- C5 witness: a document with a dangling start sentinel is treated as
having no owned region and merge appends after it. -/
theorem c5_witness :
    hasSubstr docNoEnd BTW_END_MARKER = false ∧
    trimStr docNoEnd ≠ [] ∧
    updateClaudeMd (some docNoEnd) true false "R".data =
      trimStr docNoEnd ++ SEPARATOR ++ "R".data :=
  ⟨by decide, by decide,
    c5_amended.2.2 docNoEnd "R".data false (by decide) (by decide)⟩

/-- C6: for every agent description containing `:`, `#`, a newline, or
a leading/trailing space, `generateAgentFile` wraps the description
value in double quotes with internal double quotes escaped, the escaped
line appears in the generated header, and parsing the value back (per
the spec's quoting convention) recovers the original description. -/
theorem c6_escape_roundtrip (a : AgentDefinition) (wid ts : Str)
    (h : ':' ∈ a.description ∨ '#' ∈ a.description ∨ '\n' ∈ a.description ∨
         a.description.head? = some ' ' ∨ a.description.getLast? = some ' ') :
    escapeYamlString a.description = '"' :: (escQuotes a.description ++ ['"']) ∧
    parseYamlValue (escapeYamlString a.description) = a.description ∧
    ("description: ".data ++ escapeYamlString a.description) ∈ agentFileLines a wid ts := by
  have hq : needsQuote a.description = true := by
    rcases h with h | h | h | h | h <;> simp [needsQuote, h]
  have h1 : escapeYamlString a.description = '"' :: (escQuotes a.description ++ ['"']) := by
    rw [escapeYamlString, if_pos hq]
  refine ⟨h1, ?_, ?_⟩
  · rw [h1]
    have hlen : 2 ≤ ('"' :: (escQuotes a.description ++ ['"'])).length := by
      simp only [List.length_cons, List.length_append, List.length_singleton]
      omega
    have hlast : ('"' :: (escQuotes a.description ++ ['"'])).getLast? = some '"' := by
      rw [show ('"' :: (escQuotes a.description ++ ['"'])) =
          ('"' :: escQuotes a.description) ++ ['"'] from by simp]
      exact List.getLast?_concat _
    rw [parseYamlValue, if_pos ⟨hlen, rfl, hlast⟩]
    simp only [List.drop_succ_cons, List.drop_zero, List.dropLast_concat]
    exact unesc_esc _
  · rw [agentFileLines]
    refine List.mem_append_left _ (List.mem_append_left _ ?_)
    simp

/-- C6 witness: a description containing a colon round-trips. -/
theorem c6_witness :
    (':' ∈ agent6.description ∨ '#' ∈ agent6.description ∨
      '\n' ∈ agent6.description ∨ agent6.description.head? = some ' ' ∨
      agent6.description.getLast? = some ' ') ∧
    escapeYamlString agent6.description =
      '"' :: (escQuotes agent6.description ++ ['"']) ∧
    parseYamlValue (escapeYamlString agent6.description) = agent6.description :=
  ⟨Or.inl (by decide),
    (c6_escape_roundtrip agent6 "demo".data "T".data (Or.inl (by decide))).1,
    (c6_escape_roundtrip agent6 "demo".data "T".data (Or.inl (by decide))).2.1⟩

/-- C7: eject deletes the shared document instead of writing it whenever
the content minus its owned region trims to blank (for a global eject,
and for a scoped eject whose `BTW:<id>:` marker is present); in
particular an inject without merge into a project whose document did not
pre-exist, followed by an eject of that workflow, leaves the document
absent. -/
theorem c7_round_trip :
    (∀ fs w cl d, fs.claudeMd = some d →
        hasSubstr d ("BTW:".data ++ w ++ ":".data) = true →
        trimStr (removeBtwContent d) = [] →
        (eject fs ⟨some w, cl⟩).claudeMd = none)
    ∧ (∀ fs cl d, fs.claudeMd = some d →
        trimStr (removeBtwContent d) = [] →
        (eject fs ⟨none, cl⟩).claudeMd = none)
    ∧ (∀ fs m b fc cl ts, fs.claudeMd = none →
        hasSubstr (generateInstructions m ts) ("BTW:".data ++ m.id ++ ":".data) = true →
        trimStr (removeBtwContent (generateInstructions m ts)) = [] →
        (eject (inject fs m ⟨b, fc, false⟩ ts).1 ⟨some m.id, cl⟩).claudeMd = none) := by
  refine ⟨?_, ?_, ?_⟩
  · intro fs w cl d hmd hsub htr
    exact eject_deletes_blank_doc ⟨some w, cl⟩ hmd hsub htr
  · intro fs cl d hmd htr
    exact eject_deletes_blank_doc ⟨none, cl⟩ hmd rfl htr
  · intro fs m b fc cl ts h0 hsub htr
    rcases inject_claudeMd_cases fs m b fc ts h0 with h | h
    · simp [eject, h]
    · exact eject_deletes_blank_doc ⟨some m.id, cl⟩ h hsub htr

set_option maxRecDepth 40000 in
/-- C7 witness: injecting `demo` into an empty project (no merge) and
ejecting it leaves `CLAUDE.md` absent. -/
theorem c7_witness :
    (⟨false, none, none⟩ : FSState).claudeMd = none ∧
    hasSubstr (generateInstructions m0 "T".data) ("BTW:".data ++ m0.id ++ ":".data) = true ∧
    trimStr (removeBtwContent (generateInstructions m0 "T".data)) = [] ∧
    (eject (inject ⟨false, none, none⟩ m0 ⟨false, false, false⟩ "T".data).1
      ⟨some m0.id, false⟩).claudeMd = none :=
  ⟨rfl, by decide, by decide,
    c7_round_trip.2.2 ⟨false, none, none⟩ m0 false false false "T".data rfl
      (by decide) (by decide)⟩

/-- C9 counterexample: a listing with one readable marked artifact and
one unreadable file — a file read fails, yet `getStatus` reports
`isInjected = true` with the readable artifact's workflow id, not the
degraded `{isInjected := false, hasBackup := false}` status the claim
requires. -/
theorem c9_cex :
    (∃ f ∈ files9, f.content = none) ∧
    getStatus fs9 = ⟨true, some "demo".data, false⟩ ∧
    getStatus fs9 ≠ ⟨false, none, false⟩ := by
  refine ⟨by decide, by decide, ?_⟩
  decide

/-- C9 amended: `getStatus` (a total function of the modelled state)
degrades to `{isInjected := false, hasBackup := false}` when the
directory listing fails or when every file read fails; individual
unreadable files are merely skipped, and whenever it reports
`isInjected = true` the result is derived from the BTW markers of the
current listing alone — some listed artifact carries a marker, and no
state outside the agents directory is consulted. -/
theorem c9_amended :
    (∀ fs : FSState, fs.agentsDir = none → getStatus fs = ⟨false, none, false⟩)
    ∧ (∀ (fs : FSState) files, fs.agentsDir = some files →
        (∀ f ∈ files, f.content = none) → getStatus fs = ⟨false, none, false⟩)
    ∧ (∀ fs : FSState, (getStatus fs).isInjected = true →
        ∃ f ∈ fs.agentsDir.getD [], isBtwFile f = true)
    ∧ (∀ fs fs' : FSState, fs.agentsDir = fs'.agentsDir →
        getStatus fs = getStatus fs') := by
  refine ⟨?_, ?_, ?_, ?_⟩
  · intro fs h
    simp [getStatus, h, findBtwAgents]
  · intro fs files h hall
    have hfil : files.filter isBtwFile = [] :=
      List.filter_eq_nil_iff.mpr
        (fun f hf => by rw [isBtwFile_of_unreadable (hall f hf)]; decide)
    simp [getStatus, h, findBtwAgents, hfil]
  · intro fs h
    by_cases hemp : (findBtwAgents (fs.agentsDir.getD [])).isEmpty = true
    · rw [getStatus] at h
      simp only [hemp, if_true] at h
      cases h
    · have hfil : (fs.agentsDir.getD []).filter isBtwFile ≠ [] := by
        intro hnil
        exact hemp (by rw [findBtwAgents, hnil]; rfl)
      rcases List.exists_mem_of_ne_nil _ hfil with ⟨x, hx⟩
      rcases List.mem_filter.mp hx with ⟨hxmem, hxbtw⟩
      exact ⟨x, hxmem, hxbtw⟩
  · intro fs fs' h
    simp only [getStatus, h]

/-- C9 witness: a directory whose only file is unreadable degrades to
the negative status. -/
theorem c9_witness :
    (∀ f ∈ [(⟨"a.md".data, none⟩ : FileEntry)], f.content = none) ∧
    getStatus ⟨true, some [(⟨"a.md".data, none⟩ : FileEntry)], none⟩ =
      ⟨false, none, false⟩ :=
  ⟨by decide,
    c9_amended.2.1 ⟨true, some [(⟨"a.md".data, none⟩ : FileEntry)], none⟩
      [(⟨"a.md".data, none⟩ : FileEntry)] rfl (by decide)⟩

/-- C10: when artifacts of several distinct workflow ids coexist,
`getStatus` reports `isInjected = true` with `workflowId` equal to the
first distinct marker value in listing order, and no other coexisting
id ever appears in the `workflowId` field. -/
theorem c10_first_workflow_only (fs : FSState) (files : List FileEntry)
    (w : Str) (rest : List Str)
    (hdir : fs.agentsDir = some files)
    (hids : getAllWorkflowIdsFromAgents files = w :: rest) :
    (getStatus fs).isInjected = true ∧
    (getStatus fs).workflowId = some w ∧
    ∀ w', w' ≠ w → (getStatus fs).workflowId ≠ some w' := by
  have hne : findBtwAgents files ≠ [] :=
    findBtwAgents_ne_nil_of_ids (by rw [hids]; exact List.cons_ne_nil w rest)
  have hemp : (findBtwAgents files).isEmpty = false := by
    rcases hx : (findBtwAgents files).isEmpty with _ | _
    · rfl
    · exact absurd (List.isEmpty_iff.mp hx) hne
  have hstat : getStatus fs =
      ⟨true, getWorkflowIdFromAgents files,
        (findBtwAgents files).any
          (fun n => files.any (fun f => f.name == n ++ BACKUP_SUFFIX))⟩ := by
    rw [getStatus, hdir]
    simp [hemp]
  rw [hstat]
  refine ⟨rfl, ?_, ?_⟩
  · rw [getWorkflowIdFromAgents, hids]
    rfl
  · intro w' hne' hc
    rw [getWorkflowIdFromAgents, hids] at hc
    have hc' : some w = some w' := hc
    exact hne' (Option.some_injective _ hc').symm

/-- C10 witness: with `demo` listed before `other`, the status names
only `demo`. -/
theorem c10_witness :
    fs4.agentsDir = some [demoFile, otherFile] ∧
    getAllWorkflowIdsFromAgents [demoFile, otherFile] = "demo".data :: ["other".data] ∧
    (getStatus fs4).isInjected = true ∧
    (getStatus fs4).workflowId = some "demo".data ∧
    (getStatus fs4).workflowId ≠ some "other".data :=
  ⟨rfl, by decide,
    (c10_first_workflow_only fs4 [demoFile, otherFile] "demo".data ["other".data]
      rfl (by decide)).1,
    (c10_first_workflow_only fs4 [demoFile, otherFile] "demo".data ["other".data]
      rfl (by decide)).2.1,
    (c10_first_workflow_only fs4 [demoFile, otherFile] "demo".data ["other".data]
      rfl (by decide)).2.2 "other".data (by decide)⟩

end BTW
